import Mathlib

/-!
Shallow embedding of the transport layer of `mcp-anywhere`
(`src/client/stdio.ts`, `src/client/sse.ts`, `src/server/sse.ts`,
`src/server/stdio.ts`) and proofs about its behaviour.

Stateful TypeScript classes are embedded as explicit state records plus pure
transition functions; callback invocations (`onmessage` / `onerror` /
`onclose`) are embedded as event lists returned by the transitions.
External collaborators (the JSON-RPC schema validator, the OAuth `auth`
flow, `fetch`) are passed in as function or data parameters.
-/

namespace MCP

/-- Opaque JSON-RPC message value.  The transport layer never inspects the
payload of a decoded message, so a message is embedded as an opaque tag. -/
structure JSONRPCMessage where
  tag : Nat
deriving DecidableEq, Repr

/-! ### String helpers

JavaScript string operations used by the transports, embedded as
structurally recursive functions on the character list of a string (the
corresponding `String` library functions recurse on byte positions, which
the kernel cannot evaluate). -/

/-- `s.startsWith(p)`. -/
def strStartsWith (s p : String) : Bool :=
  p.data.isPrefixOf s.data

/-- `s.toLowerCase()` (ASCII range, which is all the transports use). -/
def strToLower (s : String) : String :=
  String.mk (s.data.map Char.toLower)

/-- Split at the first occurrence of `c`: the part before, and `some`
remainder after it when `c` occurs. -/
def splitFirst (c : Char) (s : List Char) : List Char × Option (List Char) :=
  match s with
  | [] => ([], none)
  | a :: rest =>
      if a = c then ([], some rest)
      else
        let (l, r) := splitFirst c rest
        (a :: l, r)

/-- Split on every occurrence of `c` (the pieces between separators, with
empty pieces kept), accumulator form. -/
def splitAllCharAux (c : Char) : List Char → List Char → List (List Char)
  | [], acc => [acc.reverse]
  | a :: rest, acc =>
      if a = c then acc.reverse :: splitAllCharAux c rest []
      else splitAllCharAux c rest (a :: acc)

/-- Split at the first occurrence of the character sequence `sep`:
`none` when `sep` does not occur. -/
def splitOnSeqFirst (sep : List Char) : List Char → Option (List Char × List Char)
  | [] => none
  | a :: rest =>
      if sep.isPrefixOf (a :: rest) then some ([], (a :: rest).drop sep.length)
      else
        match splitOnSeqFirst sep rest with
        | none => none
        | some (l, r) => some (a :: l, r)

/-- Trim leading and trailing whitespace. -/
def trimChars (l : List Char) : List Char :=
  ((l.dropWhile Char.isWhitespace).reverse.dropWhile Char.isWhitespace).reverse

/-- The platform reported by `process.platform`, as far as the transport
layer distinguishes it (`win32` versus everything else). -/
inductive Platform
  | win32
  | posix
deriving DecidableEq, Repr

/-- `DEFAULT_INHERITED_ENV_VARS` from `client/stdio.ts`: the allow-list of
environment variable names inherited by default, per platform. -/
def DEFAULT_INHERITED_ENV_VARS : Platform → List String
  | .win32 =>
      ["APPDATA", "HOMEDRIVE", "HOMEPATH", "LOCALAPPDATA", "PATH",
       "PROCESSOR_ARCHITECTURE", "SYSTEMDRIVE", "SYSTEMROOT", "TEMP",
       "USERNAME", "USERPROFILE", "PROGRAMFILES"]
  | .posix =>
      ["HOME", "LOGNAME", "PATH", "SHELL", "TERM", "USER"]

/-- `getDefaultEnvironment` from `client/stdio.ts`.  The parent process
environment is a partial map from variable names to values; the result is
the association list the loop builds (object insertion order).  When not in
a Node.js environment the function returns the empty object. -/
def getDefaultEnvironment (isNode : Bool) (platform : Platform)
    (processEnv : String → Option String) : List (String × String) :=
  if isNode then
    (DEFAULT_INHERITED_ENV_VARS platform).filterMap fun key =>
      match processEnv key with
      | none => none
      | some value =>
          if strStartsWith value "()" then none else some (key, value)
  else []

/-- The environment handed to `spawn` by `StdioClientTransport.start`:
`{ ...getDefaultEnvironment(), ...this._serverParams.env }`.  JavaScript
spread semantics: a key present in the caller-supplied overrides wins over
the default environment.  The result is embedded as the lookup function of
the spawned child's environment object. -/
def spawnEnv (isNode : Bool) (platform : Platform)
    (processEnv : String → Option String)
    (overrides : List (String × String)) : String → Option String :=
  fun key =>
    match overrides.lookup key with
    | some v => some v
    | none => (getDefaultEnvironment isNode platform processEnv).lookup key

/-! ## Stream reassembly (stdio transports)

`StdioServerTransport.processReadBuffer` (`server/stdio.ts`) and
`StdioClientTransport.processReadBuffer` (`client/stdio.ts`) are the same
loop over a `ReadBuffer` from `shared/stdio.js`. -/

/-- Events emitted by a stdio transport's read loop: `onmessage` and
`onerror` callback invocations, in order. -/
inductive StdioEvent
  | message (m : JSONRPCMessage)
  | error (e : String)
deriving DecidableEq, Repr

/-- Modelled from the spec: the `ReadBuffer` of `shared/stdio.js` is not in
the repository snapshot.  Per spec §4.2 it is an ordered byte accumulator:
`append` concatenates, extraction scans for the newline delimiter, removes
the delimited slice and decodes it, leaving the remainder buffered; no
delimiter means "no message yet".  The buffer is embedded as a character
list. -/
structure ReadBuffer where
  buffer : List Char
deriving DecidableEq, Repr

/-- `ReadBuffer.append`: concatenate an incoming chunk onto the buffer. -/
def ReadBuffer.append (rb : ReadBuffer) (chunk : List Char) : ReadBuffer :=
  ⟨rb.buffer ++ chunk⟩

/-- `ReadBuffer.clear`: drop all buffered bytes. -/
def ReadBuffer.clear : ReadBuffer := ⟨[]⟩

/-- Scan for the first newline: returns the slice before it and the
remainder after it, or `none` if the buffer holds no complete line yet. -/
def splitAtNewline : List Char → Option (List Char × List Char)
  | [] => none
  | c :: cs =>
      if c = '\n' then some ([], cs)
      else
        match splitAtNewline cs with
        | none => none
        | some (line, rest) => some (c :: line, rest)

theorem splitAtNewline_rest_length {l line rest : List Char}
    (h : splitAtNewline l = some (line, rest)) : rest.length < l.length := by
  induction l generalizing line rest with
  | nil => simp [splitAtNewline] at h
  | cons c cs ih =>
      by_cases hc : c = '\n'
      · simp only [splitAtNewline, if_pos hc, Option.some.injEq, Prod.mk.injEq] at h
        rw [← h.2]
        simp [List.length_cons]
      · simp only [splitAtNewline, if_neg hc] at h
        cases hsp : splitAtNewline cs with
        | none => simp [hsp] at h
        | some p =>
            obtain ⟨l', r'⟩ := p
            rw [hsp] at h
            simp only [Option.some.injEq, Prod.mk.injEq] at h
            have := @ih l' r' hsp
            rw [← h.2]
            simp only [List.length_cons]
            omega

theorem splitAtNewline_append {line : List Char} (rest : List Char)
    (h : '\n' ∉ line) :
    splitAtNewline (line ++ '\n' :: rest) = some (line, rest) := by
  induction line with
  | nil => simp [splitAtNewline]
  | cons c cs ih =>
      have hc : c ≠ '\n' := fun hc => h (hc ▸ List.mem_cons_self c cs)
      have hcs : '\n' ∉ cs := fun hm => h (List.mem_cons_of_mem c hm)
      simp [splitAtNewline, hc, ih hcs]

/-- `processReadBuffer` from `server/stdio.ts` / `client/stdio.ts`: loop
extracting complete lines; a decoded message goes to `onmessage`, a decode
failure goes to `onerror` and the loop continues; an incomplete line stops
the loop.  `decode` stands for `deserializeMessage` (JSON parse + schema
validation, external collaborators). -/
def processReadBuffer (decode : String → Except String JSONRPCMessage)
    (rb : ReadBuffer) : List StdioEvent × ReadBuffer :=
  match h : splitAtNewline rb.buffer with
  | none => ([], rb)
  | some (line, rest) =>
      let ev : StdioEvent :=
        match decode (String.mk line) with
        | .ok m => .message m
        | .error e => .error e
      let r := processReadBuffer decode ⟨rest⟩
      (ev :: r.1, r.2)
termination_by rb.buffer.length
decreasing_by exact splitAtNewline_rest_length h

/-! ## Push-stream transport, server role (`server/sse.ts`) -/

/-- `MAXIMUM_MESSAGE_SIZE` from `server/sse.ts`: 4 MiB in bytes. -/
def MAXIMUM_MESSAGE_SIZE : Nat := 4 * 1024 * 1024

/-- `SSEServerTransportOptions` from `server/sse.ts`.  `none` models an
absent (`undefined`) list. -/
structure SSEServerTransportOptions where
  allowedHosts : Option (List String)
  allowedOrigins : Option (List String)
  enableDnsRebindingProtection : Bool
deriving DecidableEq, Repr

/-- The `getHeader` helper of `server/sse.ts`: incoming header names are
stored lowercased (Node semantics), so a lookup lowercases the queried
name.  The header map is embedded as an association list. -/
def getHeader (headers : List (String × String)) (name : String) :
    Option String :=
  headers.lookup (strToLower name)

/-- `SSEServerTransport.validateRequestHeaders`: with protection disabled
the check is skipped; the Host header is validated only when
`allowedHosts` is present and non-empty, then the Origin header only when
`allowedOrigins` is present and non-empty.  A missing or empty header
value is falsy in the source and fails its check. -/
def validateRequestHeaders (opts : SSEServerTransportOptions)
    (headers : List (String × String)) : Option String :=
  if !opts.enableDnsRebindingProtection then none
  else
    let hostCheck : Option String :=
      match opts.allowedHosts with
      | some hosts =>
          if hosts ≠ [] then
            match getHeader headers "host" with
            | some h =>
                if h = "" ∨ h ∉ hosts then
                  some ("Invalid Host header: " ++ h)
                else none
            | none => some "Invalid Host header: undefined"
          else none
      | none => none
    match hostCheck with
    | some e => some e
    | none =>
        match opts.allowedOrigins with
        | some origins =>
            if origins ≠ [] then
              match getHeader headers "origin" with
              | some o =>
                  if o = "" ∨ o ∉ origins then
                    some ("Invalid Origin header: " ++ o)
                  else none
              | none => some "Invalid Origin header: undefined"
            else none
        | none => none

/-- The `content-type` npm parser as used by `handlePostMessage`: the media
type is the (trimmed, lowercased) part before any `;`; a shape without
exactly one `/` is a parse error (`TypeError: invalid media type`). -/
def parseContentType (s : String) : Except String String :=
  let t := (trimChars (splitFirst ';' s.data).1).map Char.toLower
  if t ≠ [] ∧ t.count '/' = 1 then .ok (String.mk t)
  else .error "invalid media type"

/-- The body of an inbound POST as `handlePostMessage` can read it: a
Fetch-style request exposing `text()`, a Node-style request streaming
chunks, or neither. -/
inductive PostBody
  | fetchText (s : String)
  | nodeChunks (chunks : List String)
  | unreadable
deriving DecidableEq, Repr

/-- The Node-style chunk loop of `handlePostMessage`: accumulate chunks,
rejecting as soon as the running total exceeds `MAXIMUM_MESSAGE_SIZE`.
Chunk lengths are byte lengths; chunks are embedded as strings. -/
def readNodeBodyAux : List String → Nat → String → Except String String
  | [], _, acc => .ok acc
  | c :: cs, total, acc =>
      if total + c.length > MAXIMUM_MESSAGE_SIZE then
        .error "Request body too large"
      else readNodeBodyAux cs (total + c.length) (acc ++ c)

/-- Observable outcome of one `handlePostMessage` call: the HTTP status
and body written to `res`, the `onerror` and `onmessage` invocations, and
whether the SSE stream is still held open afterwards. -/
structure PostOutcome where
  status : Nat
  resBody : String
  errors : List String
  messages : List JSONRPCMessage
  sseOpenAfter : Bool
deriving DecidableEq, Repr

/-- `SSEServerTransport.handlePostMessage` from `server/sse.ts`.
`sseOpen` is whether `_sseResponse` is set; `decode` stands for
`JSON.parse` composed with `JSONRPCMessageSchema.parse` (external
collaborators); `parsedBody` models a caller-supplied pre-parsed body
(fed to `handleMessage` unchanged).  Phases, in source order: 500 when no
stream is open; 403 plus `onerror` on a DNS-rebinding validation failure;
400 plus `onerror` on a content-type or body-read failure; 400 plus
`onerror` on a message-decode failure (`handleMessage` raises `onerror`
before rethrowing); otherwise `onmessage` and 202.  No phase closes the
SSE stream. -/
def handlePostMessage (decode : String → Except String JSONRPCMessage)
    (opts : SSEServerTransportOptions) (sseOpen : Bool)
    (headers : List (String × String)) (body : PostBody)
    (parsedBody : Option String) : PostOutcome :=
  if !sseOpen then
    { status := 500, resBody := "SSE connection not established",
      errors := [], messages := [], sseOpenAfter := sseOpen }
  else
    match validateRequestHeaders opts headers with
    | some e =>
        { status := 403, resBody := e, errors := [e], messages := [],
          sseOpenAfter := sseOpen }
    | none =>
        let bodyRes : Except String String :=
          match parseContentType ((getHeader headers "content-type").getD "") with
          | .error e => .error e
          | .ok t =>
              if t ≠ "application/json" then
                .error ("Unsupported content-type: " ++ t)
              else
                match parsedBody with
                | some b => .ok b
                | none =>
                    match body with
                    | .fetchText s =>
                        if s.length > MAXIMUM_MESSAGE_SIZE then
                          .error "Request body too large"
                        else .ok s
                    | .nodeChunks cs => readNodeBodyAux cs 0 ""
                    | .unreadable => .error "Unable to read request body"
        match bodyRes with
        | .error e =>
            { status := 400, resBody := e, errors := [e], messages := [],
              sseOpenAfter := sseOpen }
        | .ok b =>
            match decode b with
            | .error e =>
                { status := 400, resBody := "Invalid message: " ++ b,
                  errors := [e], messages := [], sseOpenAfter := sseOpen }
            | .ok m =>
                { status := 202, resBody := "Accepted", errors := [],
                  messages := [m], sseOpenAfter := sseOpen }

/-- Hexadecimal digit as produced by `Number.prototype.toString(16)` for a
value below 16. -/
def hexDigit (n : Nat) : Char :=
  "0123456789abcdef".data.getD (n % 16) '0'

/-- The UUID v4 polyfill template of `generateSessionId`. -/
def uuidTemplate : List Char := "xxxxxxxx-xxxx-4xxx-yxxx-xxxxxxxxxxxx".data

/-- The polyfill's `template.replace(/[xy]/g, ...)` loop: each `x` or `y`
consumes one fresh `Math.random` draw (indexed by occurrence), an `x`
becomes a random hex digit `r`, a `y` becomes `(r & 0x3) | 0x8`. -/
def uuidPolyfillAux (rand : Nat → Nat) : List Char → Nat → List Char
  | [], _ => []
  | c :: cs, i =>
      if c = 'x' then hexDigit (rand i) :: uuidPolyfillAux rand cs (i + 1)
      else if c = 'y' then
        hexDigit (rand i % 4 + 8) :: uuidPolyfillAux rand cs (i + 1)
      else c :: uuidPolyfillAux rand cs i

/-- `generateSessionId` from `server/sse.ts`: use `crypto.randomUUID` when
the platform provides it (its output passed in as `randomUUID`), else the
`Math.random`-based v4 polyfill (`rand` is the stream of random draws,
each already reduced below 16 by `(Math.random() * 16) | 0`). -/
def generateSessionId (randomUUID : Option String) (rand : Nat → Nat) :
    String :=
  match randomUUID with
  | some u => u
  | none => String.mk (uuidPolyfillAux rand uuidTemplate 0)

/-- `URLSearchParams` parsing of a raw query string: `&`-separated pairs,
key before the first `=`, value the remainder (empty when no `=`); empty
segments are dropped. -/
def parseQueryParams (q : String) : List (String × String) :=
  (splitAllCharAux '&' q.data []).filterMap fun pair =>
    if pair = [] then none
    else
      let (k, v) := splitFirst '=' pair
      some (String.mk k, String.mk (v.getD []))

/-- `URLSearchParams.set`: replace the value of the first pair with the
given key, delete any further pairs with that key; append when absent. -/
def setQueryParamAux : List (String × String) → String → String →
    List (String × String)
  | [], _, _ => []
  | (k, v) :: rest, key, value =>
      if k = key then (k, value) :: rest.filter (fun p => p.1 ≠ key)
      else (k, v) :: setQueryParamAux rest key value

/-- `URLSearchParams.set`, top level. -/
def setQueryParam (ps : List (String × String)) (key value : String) :
    List (String × String) :=
  if ps.any (fun p => p.1 = key) then setQueryParamAux ps key value
  else ps ++ [(key, value)]

/-- `URLSearchParams` serialization (percent-encoding elided: the model is
used on session ids and caller-chosen endpoint paths without reserved
characters). -/
def serializeQuery (ps : List (String × String)) : String :=
  String.intercalate "&" (ps.map fun p => p.1 ++ "=" ++ p.2)

/-- The `pathname` of `new URL(endpoint, 'http://localhost')` for a
relative `endpoint` (dot-segment normalization elided): an empty path
yields the base's `/`, a rootless path is resolved against `/`. -/
def urlPathname (p : String) : String :=
  if p = "" then "/"
  else if strStartsWith p "/" then p
  else "/" ++ p

/-- The raw path of a relative URL string: everything before the first
`?` of the part before the first `#`. -/
def endpointPathPart (e : String) : String :=
  String.mk (splitFirst '?' (splitFirst '#' e.data).1).1

/-- The raw query of a relative URL string: everything after the first
`?` of the part before the first `#` (empty when there is no `?`). -/
def endpointQueryPart (e : String) : String :=
  String.mk ((splitFirst '?' (splitFirst '#' e.data).1).2.getD [])

/-- The `hash` of `new URL(e, base)` for a relative `e`: `#` plus the
fragment, or empty when the fragment is absent or empty. -/
def endpointHashPart (e : String) : String :=
  match (splitFirst '#' e.data).2 with
  | some f => if f = [] then "" else "#" ++ String.mk f
  | none => ""

/-- The computation inside `SSEServerTransport.start`: parse the
configured endpoint against the dummy base, set the `sessionId` query
parameter, and reassemble `pathname + search + hash`. -/
def relativeUrlWithSession (endpoint sessionId : String) : String :=
  let params := setQueryParam (parseQueryParams (endpointQueryPart endpoint))
    "sessionId" sessionId
  urlPathname (endpointPathPart endpoint) ++ "?" ++ serializeQuery params ++
    endpointHashPart endpoint

/-- The query parameters a client reads back from a relative URL string
(parse the part between the first `?` and any `#`). -/
def queryParamsOfRelative (rel : String) : List (String × String) :=
  parseQueryParams (endpointQueryPart rel)

/-- State of an `SSEServerTransport` instance: the constructor-supplied
endpoint, the session id minted once at construction, and whether
`_sseResponse` currently holds the open stream. -/
structure SSEServerState where
  endpoint : String
  sessionId : String
  sseOpen : Bool
deriving DecidableEq, Repr

/-- The `SSEServerTransport` constructor: mints the session id via
`generateSessionId`; the stream is not yet open. -/
def mkSSEServerTransport (endpoint : String) (randomUUID : Option String)
    (rand : Nat → Nat) : SSEServerState :=
  { endpoint := endpoint,
    sessionId := generateSessionId randomUUID rand,
    sseOpen := false }

/-- `SSEServerTransport.start` from `server/sse.ts`: errors when already
started; otherwise writes the response headers (`writeHead`, not an SSE
event), performs exactly one `res.write` carrying the `endpoint` SSE
event, and stores the response.  The returned list holds the `res.write`
payloads issued by this call. -/
def SSEServerTransport.start (st : SSEServerState) :
    Except String (SSEServerState × List String) :=
  if st.sseOpen then
    .error "SSEServerTransport already started! If using Server class, note that connect() calls start() automatically."
  else
    .ok ({ st with sseOpen := true },
      ["event: endpoint\ndata: " ++
        relativeUrlWithSession st.endpoint st.sessionId ++ "\n\n"])

/-- The two ways an `SSEServerTransport`'s close paths run: an explicit
`close()` call (ends the response if still open, clears it, and invokes
`onclose` unconditionally), or the response's own `close` event firing
(the handler registered in `start`: clears `_sseResponse` and invokes
`onclose` unconditionally). -/
inductive ServerCloseOp
  | callClose
  | remoteClose
deriving DecidableEq, Repr

/-- One close path of `SSEServerTransport`: returns the new open flag and
the number of `onclose` invocations it performs. -/
def serverCloseStep : Bool → ServerCloseOp → Bool × Nat
  | _, .callClose => (false, 1)
  | _, .remoteClose => (false, 1)

/-- Total `onclose` invocations over a sequence of close paths of one
`SSEServerTransport` instance. -/
def serverOncloseCount : Bool → List ServerCloseOp → Nat
  | _, [] => 0
  | isOpen, op :: rest =>
      let (s', k) := serverCloseStep isOpen op
      k + serverOncloseCount s' rest

/-! ## Push-stream transport, client role (`client/sse.ts`) -/

/-- `SSEClientTransport._emitClose`: invoke `onclose` only when the
`_didEmitClose` latch is still unset, then set it.  Input is the latch,
output the new latch and the number of `onclose` invocations. -/
def emitClose (didEmitClose : Bool) : Bool × Nat :=
  if didEmitClose then (didEmitClose, 0) else (true, 1)

/-- Total `onclose` invocations over `n` `_emitClose` calls (every
termination path of the client — `close()`, clean stream end, stream
abort — funnels through `_emitClose`). -/
def clientOncloseCount : Bool → Nat → Nat
  | _, 0 => 0
  | didEmit, n + 1 =>
      let (d', k) := emitClose didEmit
      k + clientOncloseCount d' n

/-- Modelled from the spec: the WHATWG `URL` platform builtin used by
`SSEClientTransport` (not repository code).  Only its origin matters to
the transport: a URL is its origin plus the rest of its serialization. -/
structure SimpleURL where
  origin : String
  pathRest : String
deriving DecidableEq, Repr

/-- Modelled from the spec: `new URL(data, base)`.  A reference without a
`://` scheme separator is relative and inherits the base's origin; an
absolute URL's origin is its scheme plus host (up to the first `/` of the
remainder); a malformed absolute URL (empty scheme or host, or a `/`
inside the scheme) fails to parse, which the constructor reports by
throwing. -/
def newURL (data : String) (base : SimpleURL) : Option SimpleURL :=
  match splitOnSeqFirst "://".data data.data with
  | none => some { origin := base.origin, pathRest := data }
  | some (scheme, remainder) =>
      let (host, path) := splitFirst '/' remainder
      if scheme = [] ∨ '/' ∈ scheme ∨ host = [] then none
      else
        some { origin := String.mk scheme ++ "://" ++ String.mk host,
               pathRest :=
                 match path with
                 | some p => "/" ++ String.mk p
                 | none => "/" }

/-- One parsed server-sent event as the `eventsource-parser` stream
yields it: an optional event name (`message` when absent) and a data
payload. -/
structure EventSourceMessage where
  event : Option String
  data : String
deriving DecidableEq, Repr

/-- How the underlying SSE byte stream terminates after the listed events:
`reader.read()` reports `done` (with the abort signal's state), or it
throws (`isAbort`: an `AbortError`, or the signal was aborted). -/
inductive StreamEnd
  | done (aborted : Bool)
  | readError (msg : String) (isAbort : Bool)
deriving DecidableEq, Repr

/-- Observable result of `_startStream`'s event loop: the start promise's
outcome, the learned endpoint, the `onmessage` and `onerror` invocations,
and whether `_emitClose` ran. -/
structure StreamResult where
  outcome : Except String Unit
  endpoint : Option SimpleURL
  messages : List JSONRPCMessage
  errors : List String
  closeEmitted : Bool
deriving Repr

/-- The `finish` closure of `_startStream`: before the endpoint event has
resolved the start promise, any termination rejects it (with the supplied
error, an abort message, or the ended-before-endpoint message) and never
emits close; after resolution an error goes to `onerror` and a clean or
aborted end goes to `_emitClose`. -/
def finishResult (resolved : Bool) (endpoint : Option SimpleURL)
    (err : Option String) (aborted : Bool) : StreamResult :=
  if resolved then
    match err with
    | some e =>
        { outcome := .ok (), endpoint := endpoint, messages := [],
          errors := [e], closeEmitted := false }
    | none =>
        { outcome := .ok (), endpoint := endpoint, messages := [],
          errors := [], closeEmitted := true }
  else
    match err with
    | some e =>
        { outcome := .error e, endpoint := endpoint, messages := [],
          errors := [], closeEmitted := false }
    | none =>
        if aborted then
          { outcome := .error "SSE connection aborted", endpoint := endpoint,
            messages := [], errors := [], closeEmitted := false }
        else
          { outcome := .error "SSE connection ended before receiving endpoint event",
            endpoint := endpoint, messages := [], errors := [],
            closeEmitted := false }

/-- The `process` loop of `SSEClientTransport._startStream`, run over the
listed events and then the stream termination.  `decode` stands for
`JSON.parse` composed with `JSONRPCMessageSchema.parse`.  An `endpoint`
event resolves the POST target against the connection URL (`_endpoint` is
assigned before the origin check, so a mismatching endpoint is recorded),
terminating the attempt on a parse failure or an origin mismatch; any
other event is dropped while the start promise is unresolved, and decoded
to `onmessage`/`onerror` afterwards. -/
def runStream (decode : String → Except String JSONRPCMessage)
    (url : SimpleURL) (endKind : StreamEnd) :
    List EventSourceMessage → Bool → Option SimpleURL → StreamResult
  | [], resolved, ep =>
      match endKind with
      | .done aborted => finishResult resolved ep none aborted
      | .readError m isAbort =>
          if isAbort then finishResult resolved ep none true
          else finishResult resolved ep (some m) false
  | e :: rest, resolved, ep =>
      if e.event.getD "message" = "endpoint" then
        match newURL e.data url with
        | none =>
            finishResult resolved ep (some ("Invalid URL: " ++ e.data)) false
        | some newEp =>
            if newEp.origin ≠ url.origin then
              finishResult resolved (some newEp)
                (some ("Endpoint origin does not match connection origin: " ++
                  newEp.origin)) false
            else runStream decode url endKind rest true (some newEp)
      else if !resolved then runStream decode url endKind rest resolved ep
      else
        match decode e.data with
        | .ok m =>
            let r := runStream decode url endKind rest resolved ep
            { r with messages := m :: r.messages }
        | .error er =>
            let r := runStream decode url endKind rest resolved ep
            { r with errors := er :: r.errors }

/-- Result of the external `auth` collaborator in `client/sse.ts`:
`AUTHORIZED`, or a redirect-pending result. -/
inductive AuthOutcome
  | authorized
  | redirected
deriving DecidableEq, Repr

/-- How one `SSEClientTransport.send` call ends. -/
inductive SendOutcome
  | success
  | unauthorizedError
  | httpError (status : Nat)
  | exhausted
deriving DecidableEq, Repr

/-- Trace of one `SSEClientTransport.send` call: its outcome, the number
of POSTs issued, and the number of `onerror` invocations (each nested
`catch` of the recursion reports the propagating error once). -/
structure SendTrace where
  outcome : SendOutcome
  attempts : Nat
  onerrorCount : Nat
deriving DecidableEq, Repr

/-- `SSEClientTransport.send` from `client/sse.ts`, with the network and
auth collaborators scripted: `responses` lists the status of each
successive POST, `auths` the result of each successive `auth` call.  A
2xx response succeeds; a 401 with an auth provider re-authenticates and,
on `AUTHORIZED`, recursively resends (`return this.send(message)`); a
failed re-auth throws `UnauthorizedError`; any other status throws an
HTTP error.  `exhausted` is a model artifact for an unscripted POST or
auth call. -/
def sendLoop (hasAuthProvider : Bool) :
    List Nat → List AuthOutcome → SendTrace
  | [], _ => { outcome := .exhausted, attempts := 0, onerrorCount := 0 }
  | status :: restResp, auths =>
      if 200 ≤ status ∧ status < 300 then
        { outcome := .success, attempts := 1, onerrorCount := 0 }
      else if status = 401 ∧ hasAuthProvider then
        match auths with
        | [] => { outcome := .exhausted, attempts := 1, onerrorCount := 1 }
        | a :: restAuth =>
            if a = .authorized then
              let r := sendLoop hasAuthProvider restResp restAuth
              { r with
                  attempts := r.attempts + 1,
                  onerrorCount :=
                    if r.outcome = .success then r.onerrorCount
                    else r.onerrorCount + 1 }
            else
              { outcome := .unauthorizedError, attempts := 1,
                onerrorCount := 1 }
      else
        { outcome := .httpError status, attempts := 1, onerrorCount := 1 }

/-! ## Helper lemmas -/

theorem lookup_mem {α β : Type} [BEq α] [LawfulBEq α] {l : List (α × β)}
    {k : α} {v : β} (h : l.lookup k = some v) : (k, v) ∈ l := by
  induction l with
  | nil => simp [List.lookup] at h
  | cons p rest ih =>
      obtain ⟨a, b⟩ := p
      by_cases hk : k = a
      · subst hk
        simp [List.lookup] at h
        simp [h]
      · have hbeq : (k == a) = false := by simp [hk]
        simp [List.lookup, hbeq] at h
        exact List.mem_cons_of_mem _ (ih h)

theorem mem_getDefaultEnvironment {platform : Platform}
    {processEnv : String → Option String} {k v : String} :
    (k, v) ∈ getDefaultEnvironment true platform processEnv ↔
      k ∈ DEFAULT_INHERITED_ENV_VARS platform ∧ processEnv k = some v ∧
        ¬ strStartsWith v "()" := by
  have hunf : getDefaultEnvironment true platform processEnv =
      (DEFAULT_INHERITED_ENV_VARS platform).filterMap (fun key =>
        match processEnv key with
        | none => none
        | some value =>
            if strStartsWith value "()" then none else some (key, value)) :=
    rfl
  rw [hunf, List.mem_filterMap]
  constructor
  · rintro ⟨a, ha, hf⟩
    cases henv : processEnv a with
    | none => simp [henv] at hf
    | some value =>
        simp only [henv] at hf
        by_cases hs : strStartsWith value "()" = true
        · simp [hs] at hf
        · simp only [hs, if_false, Bool.false_eq_true, not_false_eq_true,
            if_neg, Option.some.injEq, Prod.mk.injEq] at hf
          obtain ⟨hak, hvv⟩ := hf
          subst hak
          subst hvv
          exact ⟨ha, henv, hs⟩
  · rintro ⟨hk, henv, hs⟩
    exact ⟨k, hk, by simp [henv, hs]⟩

/-! ## C1 -/

/-- C1, counterexample: `StdioClientTransport.start` spawns with
`{ ...getDefaultEnvironment(), ...this._serverParams.env }`, so a caller
override whose value is `() { echo pwned; }` is present, verbatim, in the
child environment: the marker filter is applied only inside
`getDefaultEnvironment`, never to the caller-supplied overrides. -/
theorem spawnEnv_pwned_override_present :
    spawnEnv true .posix (fun _ => none)
      [("FOO", "() \x7b echo pwned; \x7d")] "FOO" =
      some "() \x7b echo pwned; \x7d" := by
  rfl

/-- C1 (amended): only a caller-supplied override can put a `()`-prefixed
value into the spawned child's environment.  Any variable the caller does
not override is inherited through `getDefaultEnvironment`, whose value
never starts with `()` and is an unchanged copy of the parent's; a
variable the caller does override is passed through verbatim. -/
theorem spawnEnv_marker_only_from_overrides (platform : Platform)
    (processEnv : String → Option String)
    (overrides : List (String × String)) (key : String) :
    (∀ v, overrides.lookup key = none →
      spawnEnv true platform processEnv overrides key = some v →
        ¬ strStartsWith v "()" ∧ processEnv key = some v) ∧
    (∀ v, overrides.lookup key = some v →
      spawnEnv true platform processEnv overrides key = some v) := by
  constructor
  · intro v hno hsp
    rw [spawnEnv, hno] at hsp
    have hmem := lookup_mem hsp
    have := mem_getDefaultEnvironment.mp hmem
    exact ⟨this.2.2, this.2.1⟩
  · intro v hyes
    rw [spawnEnv, hyes]

/-- C1 (amended), witness at a concrete parent environment and override
set: the non-overridden `HOME` is inherited unchanged and is not
`()`-prefixed. -/
theorem spawnEnv_marker_only_from_overrides_witness :
    ¬ (strStartsWith "/root" "()") ∧
      (fun k => if k = "HOME" then some "/root" else none) "HOME" =
        some "/root" :=
  (spawnEnv_marker_only_from_overrides .posix
      (fun k => if k = "HOME" then some "/root" else none)
      [("FOO", "() \x7b echo pwned; \x7d")] "HOME").1
    "/root" (by rfl) (by rfl)

/-! ## C8 -/

/-- C8: in a Node environment, `getDefaultEnvironment` contains exactly
the pairs whose variable name is on the platform allow-list
`DEFAULT_INHERITED_ENV_VARS`, that are defined in the parent process
environment, and whose value does not start with the `()` marker; the
value is the parent's, unchanged. -/
theorem getDefaultEnvironment_mem_iff (platform : Platform)
    (processEnv : String → Option String) (k v : String) :
    (k, v) ∈ getDefaultEnvironment true platform processEnv ↔
      k ∈ DEFAULT_INHERITED_ENV_VARS platform ∧ processEnv k = some v ∧
        ¬ strStartsWith v "()" :=
  mem_getDefaultEnvironment

/-- C8, witness at a concrete parent environment: `HOME` is returned with
its parent value while the `()`-prefixed `PATH` is dropped. -/
theorem getDefaultEnvironment_mem_iff_witness :
    ("HOME", "/root") ∈ getDefaultEnvironment true .posix
        (fun k => if k = "HOME" then some "/root"
                  else if k = "PATH" then some "() bad" else none) ∧
      ¬ ("PATH", "() bad") ∈ getDefaultEnvironment true .posix
        (fun k => if k = "HOME" then some "/root"
                  else if k = "PATH" then some "() bad" else none) := by
  constructor
  · exact (getDefaultEnvironment_mem_iff .posix _ "HOME" "/root").mpr
      (by refine ⟨by decide, by rfl, by decide⟩)
  · intro hmem
    have := (getDefaultEnvironment_mem_iff .posix _ "PATH" "() bad").mp hmem
    exact absurd this.2.2 (by decide)

theorem splitAtNewline_eq_none {l : List Char} (h : '\n' ∉ l) :
    splitAtNewline l = none := by
  induction l with
  | nil => rfl
  | cons c cs ih =>
      have hc : c ≠ '\n' := fun hc => h (hc ▸ List.mem_cons_self c cs)
      have hcs : '\n' ∉ cs := fun hm => h (List.mem_cons_of_mem c hm)
      simp [splitAtNewline, hc, ih hcs]

theorem processReadBuffer_step (decode : String → Except String JSONRPCMessage)
    (line rest : List Char) (h : '\n' ∉ line) :
    processReadBuffer decode ⟨line ++ '\n' :: rest⟩ =
      ((match decode (String.mk line) with
         | .ok m => StdioEvent.message m
         | .error e => StdioEvent.error e) ::
        (processReadBuffer decode ⟨rest⟩).1,
       (processReadBuffer decode ⟨rest⟩).2) := by
  rw [processReadBuffer.eq_def]
  split
  · rename_i heq
    simp only [splitAtNewline_append _ h] at heq
    exact Option.noConfusion heq
  · rename_i l r heq
    simp only [splitAtNewline_append _ h, Option.some.injEq,
      Prod.mk.injEq] at heq
    obtain ⟨hl, hr⟩ := heq
    subst hl; subst hr
    rfl

theorem processReadBuffer_no_newline
    (decode : String → Except String JSONRPCMessage) (l : List Char)
    (h : '\n' ∉ l) : processReadBuffer decode ⟨l⟩ = ([], ⟨l⟩) := by
  rw [processReadBuffer.eq_def]
  split
  · rfl
  · rename_i l2 r2 heq
    simp only [splitAtNewline_eq_none h] at heq
    exact Option.noConfusion heq

/-! ## C7 -/

/-- C7: in the `processReadBuffer` loop shared by `StdioServerTransport`
and `StdioClientTransport`, a buffer holding one undecodable line followed
by one valid line yields exactly one `onerror` (for the bad line) and then
exactly one `onmessage` (for the valid line), draining the buffer; and in
general a decode failure on one extracted line never stops extraction of
the remaining buffered data. -/
theorem processReadBuffer_bad_then_good
    (decode : String → Except String JSONRPCMessage)
    (bad good eb : String) (m : JSONRPCMessage)
    (hbad : decode bad = .error eb) (hgood : decode good = .ok m)
    (hb : '\n' ∉ bad.data) (hg : '\n' ∉ good.data) :
    processReadBuffer decode ⟨bad.data ++ '\n' :: (good.data ++ ['\n'])⟩ =
      ([.error eb, .message m], ⟨[]⟩) ∧
    (∀ rest, processReadBuffer decode ⟨bad.data ++ '\n' :: rest⟩ =
      (.error eb :: (processReadBuffer decode ⟨rest⟩).1,
       (processReadBuffer decode ⟨rest⟩).2)) := by
  have hsb : String.mk bad.data = bad := rfl
  have hsg : String.mk good.data = good := rfl
  constructor
  · rw [processReadBuffer_step decode _ _ hb]
    have hsplit : good.data ++ ['\n'] = good.data ++ '\n' :: [] := rfl
    rw [hsplit, processReadBuffer_step decode _ _ hg,
      processReadBuffer_no_newline decode [] (by simp)]
    rw [hsb, hbad, hsg, hgood]
  · intro rest
    rw [processReadBuffer_step decode _ _ hb, hsb, hbad]

/-- C7, witness at a concrete decoder and byte stream: the malformed line
`bad` produces one `onerror`, the valid line `ok` one `onmessage`. -/
theorem processReadBuffer_bad_then_good_witness :
    processReadBuffer
        (fun s => if s = "ok" then .ok ⟨1⟩ else .error "parse error")
        ⟨"bad".data ++ '\n' :: ("ok".data ++ ['\n'])⟩ =
      ([.error "parse error", .message ⟨1⟩], ⟨[]⟩) :=
  (processReadBuffer_bad_then_good
    (fun s => if s = "ok" then .ok ⟨1⟩ else .error "parse error")
    "bad" "ok" "parse error" ⟨1⟩ (by rfl) (by rfl)
    (by decide) (by decide)).1

/-! ## C3 -/

/-- C3, counterexample: `SSEServerTransport.close` invokes `onclose`
unconditionally, and the response's `close` handler registered in
`start` does too.  Calling `close()` twice on one started instance
invokes `onclose` twice, and so does `close()` after the remote end
already closed the connection — refuting "on-close is invoked at most
once over the instance's lifetime" for every transport. -/
theorem sse_server_onclose_twice :
    serverOncloseCount true [.callClose, .callClose] = 2 ∧
      serverOncloseCount true [.remoteClose, .callClose] = 2 ∧
      ¬ serverOncloseCount true [.callClose, .callClose] ≤ 1 := by
  refine ⟨rfl, rfl, ?_⟩
  intro h
  simp [serverOncloseCount, serverCloseStep] at h

/-- C3 (amended): the SSE client transport's `_didEmitClose` latch in
`_emitClose` makes `onclose` fire at most once no matter how many
termination paths (`close()`, clean stream end, abort) run; the SSE
server transport has no such latch and fires `onclose` once per close
path executed, so closing twice fires it twice. -/
theorem onclose_client_latched_server_not :
    (∀ n, clientOncloseCount false n ≤ 1) ∧
      (∀ ops, serverOncloseCount true ops = ops.length) := by
  have hzero : ∀ n, clientOncloseCount true n = 0 := by
    intro n
    induction n with
    | zero => rfl
    | succ k ih => simpa [clientOncloseCount, emitClose] using ih
  constructor
  · intro n
    cases n with
    | zero => simp [clientOncloseCount]
    | succ k => simp [clientOncloseCount, emitClose, hzero]
  · intro ops
    have hgen : ∀ (ops : List ServerCloseOp) (b : Bool),
        serverOncloseCount b ops = ops.length := by
      intro ops
      induction ops with
      | nil => intro b; rfl
      | cons op rest ih =>
          intro b
          cases op <;>
            simp [serverOncloseCount, serverCloseStep, ih, Nat.add_comm]
    exact hgen ops true

/-! ## C2 -/

/-- C2, counterexample: with an auth provider that keeps succeeding, a
`send` whose first POST and whose resend both receive 401 does not fail —
`send` re-authenticates again and issues a third POST
(`return this.send(message)` carries no retry bound), succeeding here on
the third attempt.  The second consecutive 401 is not a fatal error and a
further retry does occur. -/
theorem sse_send_second_401_retries_again :
    sendLoop true [401, 401, 200] [.authorized, .authorized] =
        { outcome := .success, attempts := 3, onerrorCount := 0 } ∧
      (sendLoop true [401, 401, 200] [.authorized, .authorized]).outcome ≠
        .unauthorizedError ∧
      (sendLoop true [401, 401, 200] [.authorized, .authorized]).attempts ≠ 2 := by
  refine ⟨rfl, ?_, ?_⟩ <;> decide

/-- C2 (amended): every 401 response triggers a re-authentication and a
resend, and the cycle repeats for as long as re-authentication keeps
returning `AUTHORIZED` (the retry count is unbounded in the number of
consecutive 401s); `send` fails fatally — surfaced to the caller and via
`onerror` — exactly when re-authentication does not return `AUTHORIZED`
(an `UnauthorizedError`) or a non-401, non-2xx status arrives. -/
theorem sse_send_auth_retry_unbounded :
    (∀ (k s : Nat) (rest : List Nat) (auths : List AuthOutcome),
      200 ≤ s → s < 300 →
      sendLoop true (List.replicate k 401 ++ s :: rest)
          (List.replicate k .authorized ++ auths) =
        { outcome := .success, attempts := k + 1, onerrorCount := 0 }) ∧
    (∀ (rest : List Nat) (auths : List AuthOutcome),
      sendLoop true (401 :: rest) (.redirected :: auths) =
        { outcome := .unauthorizedError, attempts := 1, onerrorCount := 1 }) ∧
    (∀ (s : Nat) (rest : List Nat) (auths : List AuthOutcome),
      ¬ (200 ≤ s ∧ s < 300) → s ≠ 401 →
      sendLoop true (s :: rest) auths =
        { outcome := .httpError s, attempts := 1, onerrorCount := 1 }) := by
  refine ⟨?_, ?_, ?_⟩
  · intro k
    induction k with
    | zero =>
        intro s rest auths hs1 hs2
        simp [sendLoop, hs1, hs2]
    | succ j ih =>
        intro s rest auths hs1 hs2
        have hnot : ¬ (200 ≤ 401 ∧ 401 < 300) := by omega
        simp only [List.replicate_succ, List.cons_append, sendLoop,
          if_neg hnot]
        simp [ih s rest auths hs1 hs2]
  · intro rest auths
    have hnot : ¬ (200 ≤ 401 ∧ 401 < 300) := by omega
    simp [sendLoop, hnot]
  · intro s rest auths hnot h401
    simp [sendLoop, hnot, h401]

/-- C2 (amended), witness: one 401 answered by a successful re-auth is
resent and succeeds on the second POST. -/
theorem sse_send_auth_retry_unbounded_witness :
    sendLoop true [401, 204] [.authorized] =
      { outcome := .success, attempts := 2, onerrorCount := 0 } :=
  sse_send_auth_retry_unbounded.1 1 204 [] [] (by omega) (by omega)

/-! ## C4 -/

/-- C4: with DNS-rebinding protection enabled, the Host check runs only
when `allowedHosts` is present and non-empty (otherwise the verdict
depends only on the Origin header) and the Origin check runs only when
`allowedOrigins` is present and non-empty (otherwise the verdict depends
only on the Host header); a POST whose Origin is not in a non-empty
`allowedOrigins` list is answered 403 with a descriptive message, raises
`onerror`, delivers no message and leaves the SSE stream open, while the
same POST with an Origin in the list passes the validation. -/
theorem sse_server_origin_validation_gate
    (opts : SSEServerTransportOptions)
    (hen : opts.enableDnsRebindingProtection = true) :
    ((opts.allowedHosts = none ∨ opts.allowedHosts = some []) →
      ∀ headers₁ headers₂ : List (String × String),
        getHeader headers₁ "origin" = getHeader headers₂ "origin" →
        validateRequestHeaders opts headers₁ =
          validateRequestHeaders opts headers₂) ∧
    ((opts.allowedOrigins = none ∨ opts.allowedOrigins = some []) →
      ∀ headers₁ headers₂ : List (String × String),
        getHeader headers₁ "host" = getHeader headers₂ "host" →
        validateRequestHeaders opts headers₁ =
          validateRequestHeaders opts headers₂) ∧
    (∀ (origins : List String) (headers : List (String × String)) (o : String),
      opts.allowedOrigins = some origins → origins ≠ [] →
      (opts.allowedHosts = none ∨ opts.allowedHosts = some []) →
      getHeader headers "origin" = some o → o ≠ "" →
      ((o ∉ origins →
        ∀ (decode : String → Except String JSONRPCMessage) (body : PostBody)
          (parsedBody : Option String),
          handlePostMessage decode opts true headers body parsedBody =
            { status := 403, resBody := "Invalid Origin header: " ++ o,
              errors := ["Invalid Origin header: " ++ o], messages := [],
              sseOpenAfter := true }) ∧
       (o ∈ origins → validateRequestHeaders opts headers = none))) := by
  refine ⟨?_, ?_, ?_⟩
  · rintro (hh | hh) headers₁ headers₂ horig <;>
      simp [validateRequestHeaders, hen, hh, horig]
  · rintro (ho | ho) headers₁ headers₂ hhost <;>
      simp [validateRequestHeaders, hen, ho, hhost]
  · intro origins headers o hor hne hhosts hget hoe
    constructor
    · intro hnot decode body parsedBody
      have hv : validateRequestHeaders opts headers =
          some ("Invalid Origin header: " ++ o) := by
        rcases hhosts with hh | hh <;>
          simp [validateRequestHeaders, hen, hh, hor, hne, hget, hoe, hnot]
      simp [handlePostMessage, hv]
    · intro hmem
      rcases hhosts with hh | hh <;>
        simp [validateRequestHeaders, hen, hh, hor, hne, hget, hoe, hmem]

/-- C4, witness: an SSE server configured with
`allowedOrigins = ["https://a"]` and protection enabled answers a POST
with `Origin: https://b` by 403 plus `onerror`, leaving the stream open,
and accepts `Origin: https://a` through validation. -/
theorem sse_server_origin_validation_gate_witness :
    (handlePostMessage (fun _ => .ok ⟨1⟩)
        ⟨none, some ["https://a"], true⟩ true
        [("origin", "https://b"), ("content-type", "application/json")]
        (.fetchText "x") none =
      { status := 403, resBody := "Invalid Origin header: https://b",
        errors := ["Invalid Origin header: https://b"], messages := [],
        sseOpenAfter := true }) ∧
      validateRequestHeaders ⟨none, some ["https://a"], true⟩
        [("origin", "https://a"), ("content-type", "application/json")] =
        none := by
  constructor
  · exact ((sse_server_origin_validation_gate
      ⟨none, some ["https://a"], true⟩ rfl).2.2 ["https://a"]
      [("origin", "https://b"), ("content-type", "application/json")]
      "https://b" rfl (by decide) (Or.inl rfl) (by rfl) (by decide)).1
      (by decide) (fun _ => .ok ⟨1⟩) (.fetchText "x") none
  · exact ((sse_server_origin_validation_gate
      ⟨none, some ["https://a"], true⟩ rfl).2.2 ["https://a"]
      [("origin", "https://a"), ("content-type", "application/json")]
      "https://a" rfl (by decide) (Or.inl rfl) (by rfl) (by decide)).2
      (by decide)

/-! ## C9 -/

theorem readNodeBodyAux_overflow :
    ∀ (chunks : List String) (t : Nat) (acc : String),
      t ≤ MAXIMUM_MESSAGE_SIZE →
      t + (chunks.map String.length).sum > MAXIMUM_MESSAGE_SIZE →
      readNodeBodyAux chunks t acc = .error "Request body too large" := by
  intro chunks
  induction chunks with
  | nil =>
      intro t acc hle hgt
      simp at hgt
      omega
  | cons c cs ih =>
      intro t acc hle hgt
      by_cases hover : t + c.length > MAXIMUM_MESSAGE_SIZE
      · simp [readNodeBodyAux, hover]
      · have hle' : t + c.length ≤ MAXIMUM_MESSAGE_SIZE := by omega
        have hgt' : t + c.length + (cs.map String.length).sum >
            MAXIMUM_MESSAGE_SIZE := by
          simp [List.map_cons, List.sum_cons] at hgt
          omega
        simp [readNodeBodyAux, hover, ih _ _ hle' hgt']

/-- C9: on an established stream, with headers passing DNS-rebinding
validation and an `application/json` content type, a POST without a
caller-supplied pre-parsed body whose body exceeds 4 MiB (whether read
via Fetch-style `text()` or as Node-style chunks) is answered 400 with
"Request body too large" and delivers nothing to `onmessage`. -/
theorem sse_server_post_body_size_cap
    (decode : String → Except String JSONRPCMessage)
    (opts : SSEServerTransportOptions) (headers : List (String × String))
    (hval : validateRequestHeaders opts headers = none)
    (hct : parseContentType ((getHeader headers "content-type").getD "") =
      .ok "application/json") :
    (∀ s : String, s.length > MAXIMUM_MESSAGE_SIZE →
      handlePostMessage decode opts true headers (.fetchText s) none =
        { status := 400, resBody := "Request body too large",
          errors := ["Request body too large"], messages := [],
          sseOpenAfter := true }) ∧
    (∀ chunks : List String,
      (chunks.map String.length).sum > MAXIMUM_MESSAGE_SIZE →
      handlePostMessage decode opts true headers (.nodeChunks chunks) none =
        { status := 400, resBody := "Request body too large",
          errors := ["Request body too large"], messages := [],
          sseOpenAfter := true }) := by
  constructor
  · intro s hs
    simp [handlePostMessage, hval, hct, hs]
  · intro chunks hsum
    have h := readNodeBodyAux_overflow chunks 0 ""
      (by simp [MAXIMUM_MESSAGE_SIZE]) (by simpa using hsum)
    simp [handlePostMessage, hval, hct, h]

/-- C9, witness: a 4 MiB + 1 byte body on an otherwise valid POST is
rejected 400 without reaching `onmessage`. -/
theorem sse_server_post_body_size_cap_witness :
    handlePostMessage (fun _ => .ok ⟨1⟩) ⟨none, none, false⟩ true
        [("content-type", "application/json")]
        (.fetchText (String.mk (List.replicate 4194305 'a'))) none =
      { status := 400, resBody := "Request body too large",
        errors := ["Request body too large"], messages := [],
        sseOpenAfter := true } := by
  have hlen : (String.mk (List.replicate 4194305 'a')).length >
      MAXIMUM_MESSAGE_SIZE := by
    have hmk : ∀ l : List Char, (String.mk l).length = l.length :=
      fun _ => rfl
    rw [hmk, List.length_replicate]
    norm_num [MAXIMUM_MESSAGE_SIZE]
  exact (sse_server_post_body_size_cap (fun _ => .ok ⟨1⟩)
    ⟨none, none, false⟩ [("content-type", "application/json")]
    (by rfl) (by rfl)).1 _ hlen

/-! ## C6 -/

theorem lookup_setQueryParamAux {key : String}
    (value : String) :
    ∀ ps : List (String × String), ps.any (fun p => p.1 = key) = true →
      (setQueryParamAux ps key value).lookup key = some value := by
  intro ps
  induction ps with
  | nil => intro h; simp at h
  | cons p rest ih =>
      obtain ⟨k, v⟩ := p
      intro h
      by_cases hk : k = key
      · subst hk
        simp [setQueryParamAux, List.lookup]
      · have hrest : rest.any (fun p => p.1 = key) = true := by
          simp [List.any_cons, hk] at h
          simpa using h
        have hbeq : (key == k) = false := by
          simp [BEq.beq]
          exact fun hkk => hk hkk.symm
        simp [setQueryParamAux, hk, List.lookup, hbeq, ih hrest]

theorem lookup_append_singleton {key : String} (value : String) :
    ∀ ps : List (String × String), ps.any (fun p => p.1 = key) = false →
      (ps ++ [(key, value)]).lookup key = some value := by
  intro ps
  induction ps with
  | nil => intro _; simp [List.lookup]
  | cons p rest ih =>
      obtain ⟨k, v⟩ := p
      intro h
      rw [List.any_eq_false] at h
      have hk : ¬ (k = key) := by
        have := h (k, v) (List.mem_cons_self _ _)
        simpa using this
      have hrest : rest.any (fun p => p.1 = key) = false := by
        rw [List.any_eq_false]
        intro x hx
        exact h x (List.mem_cons_of_mem _ hx)
      have hbeq : (key == k) = false := by
        simp [BEq.beq]
        exact fun hkk => hk hkk.symm
      simp [List.lookup, hbeq, ih hrest]

theorem lookup_setQueryParam (ps : List (String × String))
    (key value : String) :
    (setQueryParam ps key value).lookup key = some value := by
  rw [setQueryParam]
  by_cases h : ps.any (fun p => p.1 = key) = true
  · rw [if_pos h]
    exact lookup_setQueryParamAux value ps h
  · rw [if_neg h]
    exact lookup_append_singleton value ps (Bool.eq_false_iff.mpr h)

/-- C6: `SSEServerTransport.start` on a not-yet-started transport
performs exactly one `res.write`, and it is the `endpoint` SSE event; the
event's data is the relative form (pathname + search + hash) of the
configured endpoint with the instance's session id set as the `sessionId`
query parameter; the session id the event carries is the one minted at
construction, and when the dedicated `crypto.randomUUID` generator is
available the minted id is exactly its (version-4 UUID) output. -/
theorem sse_server_start_one_endpoint_event (st : SSEServerState)
    (hopen : st.sseOpen = false) :
    (SSEServerTransport.start st =
      .ok ({ st with sseOpen := true },
        ["event: endpoint\ndata: " ++
          relativeUrlWithSession st.endpoint st.sessionId ++ "\n\n"])) ∧
    (∃ params : List (String × String),
      relativeUrlWithSession st.endpoint st.sessionId =
        urlPathname (endpointPathPart st.endpoint) ++ "?" ++
          serializeQuery params ++ endpointHashPart st.endpoint ∧
      params.lookup "sessionId" = some st.sessionId) ∧
    (∀ (e u : String) (rand : Nat → Nat),
      (mkSSEServerTransport e (some u) rand).sessionId = u) := by
  refine ⟨?_, ?_, ?_⟩
  · simp [SSEServerTransport.start, hopen]
  · refine ⟨setQueryParam (parseQueryParams (endpointQueryPart st.endpoint))
      "sessionId" st.sessionId, rfl, ?_⟩
    exact lookup_setQueryParam _ _ _
  · intro e u rand
    rfl

/-- C6, witness at a concrete endpoint (`/messages?foo=bar#frag`) and the
polyfill session id: one `endpoint` event is written, with the original
query kept, the session id appended, and the fragment preserved; parsing
the emitted relative URL back recovers that session id. -/
theorem sse_server_start_one_endpoint_event_witness :
    (SSEServerTransport.start
        (mkSSEServerTransport "/messages?foo=bar#frag" none (fun _ => 15)) =
      .ok ({ endpoint := "/messages?foo=bar#frag",
             sessionId := "ffffffff-ffff-4fff-bfff-ffffffffffff",
             sseOpen := true },
        ["event: endpoint\ndata: /messages?foo=bar&sessionId=ffffffff-ffff-4fff-bfff-ffffffffffff#frag\n\n"])) ∧
      (queryParamsOfRelative
          "/messages?foo=bar&sessionId=ffffffff-ffff-4fff-bfff-ffffffffffff#frag").lookup
        "sessionId" = some "ffffffff-ffff-4fff-bfff-ffffffffffff" := by
  constructor
  · have h := (sse_server_start_one_endpoint_event
      (mkSSEServerTransport "/messages?foo=bar#frag" none (fun _ => 15))
      rfl).1
    rw [h]
    rfl
  · rfl

/-! ## C5 and C10 -/

theorem finishResult_unresolved_error (ep : Option SimpleURL)
    (err : Option String) (ab : Bool) :
    (∃ m, (finishResult false ep err ab).outcome = .error m) ∧
      (finishResult false ep err ab).closeEmitted = false ∧
      (finishResult false ep err ab).messages = [] ∧
      (finishResult false ep err ab).errors = [] := by
  cases err with
  | some e => exact ⟨⟨e, rfl⟩, rfl, rfl, rfl⟩
  | none =>
      cases ab with
      | true => exact ⟨⟨_, rfl⟩, rfl, rfl, rfl⟩
      | false => exact ⟨⟨_, rfl⟩, rfl, rfl, rfl⟩

theorem runStream_skip (decode : String → Except String JSONRPCMessage)
    (url : SimpleURL) (ek : StreamEnd) :
    ∀ (pre rest : List EventSourceMessage) (ep : Option SimpleURL),
      (∀ e ∈ pre, e.event.getD "message" ≠ "endpoint") →
      runStream decode url ek (pre ++ rest) false ep =
        runStream decode url ek rest false ep := by
  intro pre
  induction pre with
  | nil => intro rest ep _; rfl
  | cons e pr ih =>
      intro rest ep h
      have he : e.event.getD "message" ≠ "endpoint" :=
        h e (List.mem_cons_self _ _)
      have hpre : ∀ x ∈ pr, x.event.getD "message" ≠ "endpoint" :=
        fun x hx => h x (List.mem_cons_of_mem _ hx)
      have hred : runStream decode url ek (e :: (pr ++ rest)) false ep =
          runStream decode url ek (pr ++ rest) false ep := by
        simp [runStream, he]
      rw [List.cons_append, hred]
      exact ih rest ep hpre

theorem runStream_end_unresolved
    (decode : String → Except String JSONRPCMessage)
    (url : SimpleURL) (ek : StreamEnd) (ep : Option SimpleURL) :
    (∃ m, (runStream decode url ek [] false ep).outcome = .error m) ∧
      (runStream decode url ek [] false ep).closeEmitted = false ∧
      (runStream decode url ek [] false ep).messages = [] ∧
      (runStream decode url ek [] false ep).errors = [] := by
  cases ek with
  | done ab => exact finishResult_unresolved_error ep none ab
  | readError msg isAb =>
      cases isAb with
      | true => exact finishResult_unresolved_error ep none true
      | false => exact finishResult_unresolved_error ep (some msg) false

theorem runStream_ok_endpoint
    (decode : String → Except String JSONRPCMessage)
    (url : SimpleURL) (ek : StreamEnd) :
    ∀ (events : List EventSourceMessage) (ep : Option SimpleURL),
      (runStream decode url ek events false ep).outcome = .ok () →
      ∃ e ∈ events, e.event.getD "message" = "endpoint" ∧
        ∃ nep, newURL e.data url = some nep ∧ nep.origin = url.origin := by
  intro events
  induction events with
  | nil =>
      intro ep h
      exfalso
      obtain ⟨m, hm⟩ := (runStream_end_unresolved decode url ek ep).1
      rw [hm] at h
      exact Except.noConfusion h
  | cons e rest ih =>
      intro ep h
      by_cases hname : e.event.getD "message" = "endpoint"
      · cases hurl : newURL e.data url with
        | none =>
            exfalso
            have hred : runStream decode url ek (e :: rest) false ep =
                finishResult false ep
                  (some ("Invalid URL: " ++ e.data)) false := by
              simp [runStream, hname, hurl]
            rw [hred] at h
            obtain ⟨m, hm⟩ := (finishResult_unresolved_error ep _ false).1
            rw [hm] at h
            exact Except.noConfusion h
        | some nep =>
            by_cases horig : nep.origin = url.origin
            · exact ⟨e, List.mem_cons_self _ _, hname, nep, hurl, horig⟩
            · exfalso
              have hred : runStream decode url ek (e :: rest) false ep =
                  finishResult false (some nep)
                    (some
                      ("Endpoint origin does not match connection origin: " ++
                        nep.origin)) false := by
                simp [runStream, hname, hurl, horig]
              rw [hred] at h
              obtain ⟨m, hm⟩ :=
                (finishResult_unresolved_error (some nep) _ false).1
              rw [hm] at h
              exact Except.noConfusion h
      · have hred : runStream decode url ek (e :: rest) false ep =
            runStream decode url ek rest false ep := by
          simp [runStream, hname]
        rw [hred] at h
        obtain ⟨e', he', hn', nep, hu, ho⟩ := ih ep h
        exact ⟨e', List.mem_cons_of_mem _ he', hn', nep, hu, ho⟩

/-- C5: `start()` resolves only once an `endpoint` event whose URL,
resolved against the connection URL, shares the connection's origin has
been observed; if the stream ends or aborts before any `endpoint` event,
or the first `endpoint` event's resolved URL has a different origin (or
fails to parse), the start attempt rejects with an error and `onclose` is
not emitted. -/
theorem sse_client_start_requires_endpoint
    (decode : String → Except String JSONRPCMessage) (url : SimpleURL)
    (ek : StreamEnd) (events : List EventSourceMessage) :
    ((runStream decode url ek events false none).outcome = .ok () →
      ∃ e ∈ events, e.event.getD "message" = "endpoint" ∧
        ∃ nep, newURL e.data url = some nep ∧ nep.origin = url.origin) ∧
    ((∀ e ∈ events, e.event.getD "message" ≠ "endpoint") →
      (∃ m, (runStream decode url ek events false none).outcome = .error m) ∧
        (runStream decode url ek events false none).closeEmitted = false) ∧
    (∀ pre e post, events = pre ++ e :: post →
      (∀ p ∈ pre, p.event.getD "message" ≠ "endpoint") →
      e.event.getD "message" = "endpoint" →
      (∀ nep, newURL e.data url = some nep → nep.origin ≠ url.origin) →
      (∃ m, (runStream decode url ek events false none).outcome = .error m) ∧
        (runStream decode url ek events false none).closeEmitted = false) := by
  refine ⟨runStream_ok_endpoint decode url ek events none, ?_, ?_⟩
  · intro h
    have heq := runStream_skip decode url ek events [] none h
    rw [List.append_nil] at heq
    rw [heq]
    exact ⟨(runStream_end_unresolved decode url ek none).1,
      (runStream_end_unresolved decode url ek none).2.1⟩
  · intro pre e post hev hpre hname hmis
    subst hev
    have heq := runStream_skip decode url ek pre (e :: post) none hpre
    rw [heq]
    cases hurl : newURL e.data url with
    | none =>
        have hred : runStream decode url ek (e :: post) false none =
            finishResult false none
              (some ("Invalid URL: " ++ e.data)) false := by
          simp [runStream, hname, hurl]
        rw [hred]
        exact ⟨(finishResult_unresolved_error none _ false).1,
          (finishResult_unresolved_error none _ false).2.1⟩
    | some nep =>
        have horig := hmis nep hurl
        have hred : runStream decode url ek (e :: post) false none =
            finishResult false (some nep)
              (some ("Endpoint origin does not match connection origin: " ++
                nep.origin)) false := by
          simp [runStream, hname, hurl, horig]
        rw [hred]
        exact ⟨(finishResult_unresolved_error (some nep) _ false).1,
          (finishResult_unresolved_error (some nep) _ false).2.1⟩

/-- C5, witness: a stream that ends cleanly after one ordinary message
event, with no `endpoint` event, rejects the start attempt with an error
and does not emit close. -/
theorem sse_client_start_requires_endpoint_witness :
    (∃ m, (runStream (fun _ => Except.error "bad") ⟨"http://h", "/"⟩
        (.done false) [⟨none, "x"⟩] false none).outcome = .error m) ∧
      (runStream (fun _ => Except.error "bad") ⟨"http://h", "/"⟩
        (.done false) [⟨none, "x"⟩] false none).closeEmitted = false :=
  (sse_client_start_requires_endpoint (fun _ => Except.error "bad")
    ⟨"http://h", "/"⟩ (.done false) [⟨none, "x"⟩]).2.1 (by decide)

/-- C10: before the `endpoint` event resolves the start promise, every
non-`endpoint` event is silently discarded — processing a run of
non-`endpoint` events is observably identical to never having received
them, and a stream made only of such events produces no `onmessage` and
no `onerror`. -/
theorem sse_client_silent_before_endpoint
    (decode : String → Except String JSONRPCMessage) (url : SimpleURL)
    (ek : StreamEnd) :
    (∀ pre rest, (∀ e ∈ pre, e.event.getD "message" ≠ "endpoint") →
      runStream decode url ek (pre ++ rest) false none =
        runStream decode url ek rest false none) ∧
    (∀ events, (∀ e ∈ events, e.event.getD "message" ≠ "endpoint") →
      (runStream decode url ek events false none).messages = [] ∧
        (runStream decode url ek events false none).errors = []) := by
  constructor
  · intro pre rest h
    exact runStream_skip decode url ek pre rest none h
  · intro events h
    have heq := runStream_skip decode url ek events [] none h
    rw [List.append_nil] at heq
    rw [heq]
    exact ⟨(runStream_end_unresolved decode url ek none).2.2.1,
      (runStream_end_unresolved decode url ek none).2.2.2⟩

/-- C10, witness: two non-`endpoint` events in front of the `endpoint`
event change nothing about the run — they produce neither `onmessage` nor
`onerror`. -/
theorem sse_client_silent_before_endpoint_witness :
    runStream (fun _ => Except.error "bad") ⟨"http://h", "/"⟩ (.done false)
        ([⟨some "x", "d"⟩, ⟨none, "y"⟩] ++ [⟨some "endpoint", "/p"⟩])
        false none =
      runStream (fun _ => Except.error "bad") ⟨"http://h", "/"⟩ (.done false)
        [⟨some "endpoint", "/p"⟩] false none :=
  (sse_client_silent_before_endpoint (fun _ => Except.error "bad")
    ⟨"http://h", "/"⟩ (.done false)).1 [⟨some "x", "d"⟩, ⟨none, "y"⟩]
    [⟨some "endpoint", "/p"⟩] (by decide)

end MCP
